import Mathlib

/-!
Verification of the XDM1041 SCPI driver (src/XDM1041.py) against its
natural-language specification.

The development shallowly embeds the two layers of the driver:

* the transport framer `SCPI.readdata` / `SCPI.sendcmd`, modelled over an
  explicit list of successive channel reads (each read is a list of byte
  values), with the buffer accumulation, the CR-LF tail check, the
  empty-read abort counter, the `backslashreplace` decode and the
  find/strip post-processing translated from the source;
* the instrument protocol `XdmMeter` (`__init__`, `get_response`,
  `set_mode`, `get_mode`, `get_measurement`, `close`), with the retry
  loop, the artifact repair, the Python `float` parse and the
  absent-device state (`MiniBM = None`) translated from the source.

Python strings are embedded as `List Char`, byte strings as `List Nat`
(each entry `< 256`), Python exceptions as an `Except` result.
-/

namespace Xdm

/-- Abbreviation turning a Lean string literal into the character-list
representation used throughout the embedding. -/
def str (s : String) : List Char := s.data

/-- Python `str.isspace` / `str.strip` whitespace set (the Unicode
whitespace code points recognised by CPython for `str.strip()`). -/
def pyIsSpace (c : Char) : Bool :=
  let n := c.toNat
  (9 ≤ n && n ≤ 13) || (28 ≤ n && n ≤ 31) || n == 32 || n == 133 || n == 160 ||
  n == 5760 || (8192 ≤ n && n ≤ 8202) || n == 8232 || n == 8233 || n == 8239 ||
  n == 8287 || n == 12288

/-- Remove all trailing characters satisfying `p` (helper for Python
`str.strip`). -/
def trimRightBy (p : Char → Bool) (s : List Char) : List Char :=
  (s.reverse.dropWhile p).reverse

/-- Python `s.strip()`: remove leading and trailing whitespace. -/
def pyStrip (s : List Char) : List Char :=
  (trimRightBy pyIsSpace s).dropWhile pyIsSpace

/-- Python `s.strip(chr)` for a single character argument: remove all
leading and trailing occurrences of that character. -/
def pyStripChar (ch : Char) (s : List Char) : List Char :=
  (trimRightBy (fun c => c == ch) s).dropWhile (fun c => c == ch)

/-- The two-character response terminator `"\r\n"` at the decoded level. -/
def crlfL : List Char := ['\r', '\n']

/-- The two-byte response terminator `b"\r\n"`. -/
def crlfB : List Nat := [13, 10]

/-- Index of the first occurrence of `"\r\n"` in a character list
(`none` when absent): the search underlying Python `res.find("\r\n")`. -/
def findCrlfIdx : List Char → Option Nat
  | [] => none
  | c :: rest =>
    if crlfL.isPrefixOf (c :: rest) then some 0
    else (findCrlfIdx rest).map (· + 1)

/-- Python `res.find("\r\n")`: first index, or `-1` when absent. -/
def pyFindCRLF (s : List Char) : Int :=
  match findCrlfIdx s with
  | some i => (i : Int)
  | none => -1

/-- Whether `"\r\n"` occurs anywhere in a character list. -/
def hasCRLF (s : List Char) : Bool :=
  (findCrlfIdx s).isSome

/-- Hexadecimal digit character (lower case), as produced by Python's
`backslashreplace` error handler. -/
def hexDigit (n : Nat) : Char :=
  if n < 10 then Char.ofNat (48 + n) else Char.ofNat (87 + n)

/-- Backslash-hex escape `\xNN` of one byte, as produced by Python's
`backslashreplace` error handler. -/
def escByte (b : Nat) : List Char :=
  ['\\', 'x', hexDigit (b / 16), hexDigit (b % 16)]

/-- Validity of a UTF-8 continuation byte. -/
def utf8Cont (b : Nat) : Bool := 128 ≤ b && b ≤ 191

/-- Validity of a two-byte UTF-8 sequence. -/
def utf8Two (b0 b1 : Nat) : Bool := 194 ≤ b0 && b0 ≤ 223 && utf8Cont b1

/-- Validity of a three-byte UTF-8 sequence (surrogates and overlong
forms excluded, as in CPython's strict UTF-8 decoder). -/
def utf8Three (b0 b1 b2 : Nat) : Bool :=
  ((b0 == 224 && 160 ≤ b1 && b1 ≤ 191) ||
   (225 ≤ b0 && b0 ≤ 236 && utf8Cont b1) ||
   (b0 == 237 && 128 ≤ b1 && b1 ≤ 159) ||
   (238 ≤ b0 && b0 ≤ 239 && utf8Cont b1)) && utf8Cont b2

/-- Validity of a four-byte UTF-8 sequence. -/
def utf8Four (b0 b1 b2 b3 : Nat) : Bool :=
  ((b0 == 240 && 144 ≤ b1 && b1 ≤ 191) ||
   (241 ≤ b0 && b0 ≤ 243 && utf8Cont b1) ||
   (b0 == 244 && 128 ≤ b1 && b1 ≤ 143)) && utf8Cont b2 && utf8Cont b3

/-- Worker for `pyDecodeBR`, structurally recursive on a fuel argument;
every step consumes at least one byte, so fuel equal to the byte count
is always sufficient. -/
def pyDecodeBRAux : Nat → List Nat → List Char
  | 0, _ => []
  | _ + 1, [] => []
  | fuel + 1, b0 :: rest =>
    if b0 < 128 then Char.ofNat b0 :: pyDecodeBRAux fuel rest
    else
      match rest with
      | [] => escByte b0
      | b1 :: rest1 =>
        if utf8Two b0 b1 then
          Char.ofNat ((b0 - 192) * 64 + (b1 - 128)) :: pyDecodeBRAux fuel rest1
        else
          match rest1 with
          | [] => escByte b0 ++ pyDecodeBRAux fuel [b1]
          | b2 :: rest2 =>
            if utf8Three b0 b1 b2 then
              Char.ofNat ((b0 - 224) * 4096 + (b1 - 128) * 64 + (b2 - 128)) ::
                pyDecodeBRAux fuel rest2
            else
              match rest2 with
              | [] => escByte b0 ++ pyDecodeBRAux fuel [b1, b2]
              | b3 :: rest3 =>
                if utf8Four b0 b1 b2 b3 then
                  Char.ofNat ((b0 - 240) * 262144 + (b1 - 128) * 4096 +
                      (b2 - 128) * 64 + (b3 - 128)) :: pyDecodeBRAux fuel rest3
                else escByte b0 ++ pyDecodeBRAux fuel (b1 :: b2 :: b3 :: rest3)

/-- Python `buf.decode(errors="backslashreplace")`: UTF-8 decoding where
every byte that does not begin a valid UTF-8 sequence is replaced by its
backslash-hex escape. -/
def pyDecodeBR (l : List Nat) : List Char := pyDecodeBRAux l.length l

/-- The loop exit test of `SCPI.readdata`: `len(buf) >= 2 and
buf[-2:] == b"\r\n"` (the tail of the accumulated buffer equals the
terminator). -/
def bufDone (buf : List Nat) : Bool :=
  2 ≤ buf.length && buf.drop (buf.length - 2) == crlfB

/-- Accumulation loop of `SCPI.readdata`, translated from the source.
`chunks` is the list of successive results of `self._SIF.read(64)` (an
empty element is a timed-out read); `buf` is the accumulated byte
buffer; `n` the empty-read counter.  `some buf` models the `break` exits
(with `buf` cleared on the abort exit); `none` means the observed reads
were exhausted with the loop still running. -/
def readdataLoop : List (List Nat) → List Nat → Nat → Option (List Nat)
  | [], _, _ => none
  | data :: rest, buf, n =>
    if 0 < data.length then
      let buf2 := buf ++ data
      if bufDone buf2 then some buf2 else readdataLoop rest buf2 n
    else
      if 2 < n + 1 then some []
      else readdataLoop rest buf (n + 1)

/-- Post-processing of `SCPI.readdata` after the loop: decode the buffer
with `backslashreplace`, accept it only when the first `"\r\n"` sits at
the tail (`res.find("\r\n") == len(res) - 2`), and strip the accepted
line. -/
def postProcess (res : List Char) : List Char :=
  if pyFindCRLF res = (res.length : Int) - 2 then pyStrip res else []

/-- `SCPI.readdata` over an observed list of channel reads: run the
accumulation loop, then decode and post-process.  `none` means the loop
was still running when the observed reads ran out. -/
def readdata (chunks : List (List Nat)) : Option (List Char) :=
  (readdataLoop chunks [] 0).map (fun buf => postProcess (pyDecodeBR buf))

/-- Wire text written by `SCPI.sendcmd`: the command with the `"\n"`
terminator appended (`msg = msg + "\n"`). -/
def sendcmdWire (cmd : List Char) : List Char := cmd ++ ['\n']

/-- Variant of the accumulation loop written from the spec's words for
claim C4, to be compared with the source-translated `readdataLoop`: here
the empty-read counter is a count of CONSECUTIVE empty reads, reset to
zero by any read that returns bytes.  The source never resets it. -/
def readdataLoopConsecutive : List (List Nat) → List Nat → Nat → Option (List Nat)
  | [], _, _ => none
  | data :: rest, buf, n =>
    if 0 < data.length then
      let buf2 := buf ++ data
      if bufDone buf2 then some buf2 else readdataLoopConsecutive rest buf2 0
    else
      if 2 < n + 1 then some []
      else readdataLoopConsecutive rest buf (n + 1)

/-- Spec-worded `readdata` built on the consecutive-reset loop of
`readdataLoopConsecutive` (comparison definition for claim C4). -/
def readdataConsecutive (chunks : List (List Nat)) : Option (List Char) :=
  (readdataLoopConsecutive chunks [] 0).map (fun buf => postProcess (pyDecodeBR buf))

/-- Result of Python `float(s)` when it succeeds: a finite rational, a
signed infinity, or a NaN. -/
inductive PyFloatVal where
  | finite (q : ℚ)
  | infVal (neg : Bool)
  | nanVal
deriving DecidableEq, Repr

/-- Lower-case an ASCII letter (Python's case-insensitive keyword match
in `float`). -/
def lowerChar (c : Char) : Char :=
  if 'A' ≤ c && c ≤ 'Z' then Char.ofNat (c.toNat + 32) else c

/-- Numeric value of an ASCII decimal digit. -/
def digitVal (c : Char) : Option Nat :=
  if '0' ≤ c && c ≤ '9' then some (c.toNat - 48) else none

/-- Continue scanning a digit run for Python `float`, allowing a single
underscore between two digits (`value`, `digit count`, `rest`). -/
def digitsCont (v nd : Nat) : List Char → Nat × Nat × List Char
  | [] => (v, nd, [])
  | c :: rest =>
    match digitVal c with
    | some d => digitsCont (v * 10 + d) (nd + 1) rest
    | none =>
      if c == '_' then
        match rest with
        | r :: rs =>
          match digitVal r with
          | some d => digitsCont (v * 10 + d) (nd + 1) rs
          | none => (v, nd, c :: rest)
        | [] => (v, nd, c :: rest)
      else (v, nd, c :: rest)

/-- Digit run of Python `float` (must begin with a digit). -/
def digitRun (l : List Char) : Option (Nat × Nat × List Char) :=
  match l with
  | c :: rest =>
    match digitVal c with
    | some d => some (digitsCont d 1 rest)
    | none => none
  | [] => none

/-- Ten to a signed power, as a rational. -/
def pow10 (e : Int) : ℚ :=
  if 0 ≤ e then ((10 : ℚ) ^ e.toNat) else 1 / ((10 : ℚ) ^ (-e).toNat)

/-- Mantissa of Python `float`: `digits`, `digits.`, `digits.digits` or
`.digits`, returning the value and the unconsumed rest. -/
def parseDecimal (l : List Char) : Option (ℚ × List Char) :=
  match digitRun l with
  | some (ip, _, r1) =>
    match r1 with
    | '.' :: r2 =>
      match digitRun r2 with
      | some (fp, fn, r3) => some ((ip : ℚ) + (fp : ℚ) / (10 : ℚ) ^ fn, r3)
      | none => some ((ip : ℚ), r2)
    | _ => some ((ip : ℚ), r1)
  | none =>
    match l with
    | '.' :: r2 =>
      match digitRun r2 with
      | some (fp, fn, r3) => some ((fp : ℚ) / (10 : ℚ) ^ fn, r3)
      | none => none
    | _ => none

/-- Optional exponent of Python `float` (`e`/`E`, optional sign, digit
run); an absent or malformed exponent consumes nothing. -/
def parseExp (l : List Char) : Int × List Char :=
  match l with
  | c :: rest =>
    if lowerChar c == 'e' then
      match rest with
      | s :: rest2 =>
        if s == '+' then
          match digitRun rest2 with
          | some (e, _, r) => ((e : Int), r)
          | none => (0, l)
        else if s == '-' then
          match digitRun rest2 with
          | some (e, _, r) => (-(e : Int), r)
          | none => (0, l)
        else
          match digitRun rest with
          | some (e, _, r) => ((e : Int), r)
          | none => (0, l)
      | [] => (0, l)
    else (0, l)
  | [] => (0, l)

/-- Python `float(s)`: strip whitespace, optional sign, then either a
case-insensitive `inf`/`infinity`/`nan` keyword or a decimal number with
optional exponent; `none` models the `ValueError` branch. -/
def pyFloat (s : List Char) : Option PyFloatVal :=
  let t := pyStrip s
  let signed : Bool × List Char :=
    match t with
    | '+' :: r => (false, r)
    | '-' :: r => (true, r)
    | _ => (false, t)
  let neg := signed.1
  let u := signed.2
  let low := u.map lowerChar
  if low = str "inf" ∨ low = str "infinity" then some (.infVal neg)
  else if low = str "nan" then some .nanVal
  else
    match parseDecimal u with
    | some (q, r1) =>
      let er := parseExp r1
      if er.2 = [] then
        some (.finite ((if neg then -q else q) * pow10 er.1))
      else none
    | none => none

/-- The `XdmMeter.cmds` enumeration. -/
inductive cmds where
  | VOLT | VOLT_AC | CURR | CURR_AC | RES | CAP | FREQ | PER | TEMP | DIODE | CONT
deriving DecidableEq, Repr

/-- The tuple value each `cmds` member is declared with: the literal
SCPI mnemonic of the vocabulary. -/
def cmds.value : cmds → List Char
  | .VOLT => str "VOLT"
  | .VOLT_AC => str "VOLT:AC"
  | .CURR => str "CURR"
  | .CURR_AC => str "CURR:AC"
  | .RES => str "RES"
  | .CAP => str "CAP"
  | .FREQ => str "FREQ"
  | .PER => str "PER"
  | .TEMP => str "TEMP"
  | .DIODE => str "DIOD"
  | .CONT => str "CONT"

/-- `cmds.__str__`, which returns `self.name` (the member name, not the
tuple value). -/
def cmds.toStr : cmds → List Char
  | .VOLT => str "VOLT"
  | .VOLT_AC => str "VOLT_AC"
  | .CURR => str "CURR"
  | .CURR_AC => str "CURR_AC"
  | .RES => str "RES"
  | .CAP => str "CAP"
  | .FREQ => str "FREQ"
  | .PER => str "PER"
  | .TEMP => str "TEMP"
  | .DIODE => str "DIODE"
  | .CONT => str "CONT"

/-- Escape text of the meter's Ω glyph as it appears after
`backslashreplace` decoding: the eight characters `\xa6\xb8`. -/
def omegaEsc : List Char := str "\\xa6\\xb8"

/-- Escape text of the meter's µF unit after `backslashreplace`
decoding: the nine characters `\xa6\xccF`. -/
def muFEsc : List Char := str "\\xa6\\xccF"

/-- Artifact repair of `XdmMeter.get_response` (text mode): the
`endswith` cascade translated from the source (`s[:-8] + "Ohm"`,
`s[:-9] + "uF"`, `s.strip(chr(34))`, else unchanged). -/
def repairArtifacts (s : List Char) : List Char :=
  if omegaEsc.isSuffixOf s then s.take (s.length - 8) ++ str "Ohm"
  else if muFEsc.isSuffixOf s then s.take (s.length - 9) ++ str "uF"
  else if ['"'].isSuffixOf s then pyStripChar '"' s
  else s

/-- A Python value as returned by `XdmMeter.get_response`: the integer
sentinel `0`, a parsed float, or a string. -/
inductive PyVal where
  | int (n : Int)
  | float (v : PyFloatVal)
  | strv (s : List Char)
deriving DecidableEq, Repr

/-- Observable outcome of one `get_response` call: the returned value,
the number of `sendcmd` attempts made, and the number of `sleep(0.1)`
delays taken (one after each failed attempt). -/
structure GRResult where
  res : PyVal
  attempts : Nat
  sleeps : Nat
deriving DecidableEq, Repr

/-- Retry loop of `XdmMeter.get_response`, translated from the source.
`dev k` is the decoded line produced by the `k`-th `sendcmd` of this
call; `n` counts the failed attempts so far (every earlier iteration
was a failure, so `n` is also the index of the current attempt).  On an
empty line the source sleeps 0.1 s, increments `n` and aborts with the
sentinel once `n > 5`; on a non-empty line it parses (numeric mode,
failure degrading to the sentinel `0`) or repairs artifacts (text
mode). -/
def getResponseLoop (dev : Nat → List Char) (Numeric : Bool) (n : Nat) : GRResult :=
  let s := dev n
  if s = [] then
    if 5 < n + 1 then
      { res := if Numeric then .int 0 else .strv (str "?"),
        attempts := n + 1, sleeps := n + 1 }
    else getResponseLoop dev Numeric (n + 1)
  else
    if Numeric then
      match pyFloat s with
      | some v => { res := .float v, attempts := n + 1, sleeps := n }
      | none => { res := .int 0, attempts := n + 1, sleeps := n }
    else
      { res := .strv (repairArtifacts s), attempts := n + 1, sleeps := n }
termination_by 6 - n
decreasing_by simp_wf; omega

/-- Python exceptions that the embedded operations can raise. -/
inductive PyExc where
  | attributeError
deriving DecidableEq, Repr

/-- State of the `SCPI` object owned by an `XdmMeter`: the device model
(decoded line per `sendcmd` call) and whether the serial handle has been
closed. -/
structure SCPIModel where
  dev : Nat → List Char
  closed : Bool

/-- `SCPI.__del__`: `try: self._SIF.close() except: pass` — closes the
handle and swallows every exception. -/
def SCPIModel.del (sm : SCPIModel) : SCPIModel := { sm with closed := true }

/-- The `XdmMeter` instance state: `MiniBM` is `none` after the
constructor found the device absent (`self.MiniBM = None`). -/
structure XdmMeter where
  MiniBM : Option SCPIModel
  id : List Char

/-- `XdmMeter.__init__` given the device model: send `*IDN?`, record the
reply as `id`, and clear `MiniBM` when the reply is empty. -/
def XdmMeter.init (dev : Nat → List Char) : XdmMeter :=
  let idr := dev 0
  if idr = [] then { MiniBM := none, id := idr }
  else { MiniBM := some { dev := dev, closed := false }, id := idr }

/-- `XdmMeter.get_response`: runs the retry loop through
`self.MiniBM.sendcmd`; when `MiniBM` is `None` the attribute access
raises `AttributeError`. -/
def XdmMeter.get_response (m : XdmMeter) (cmd : List Char) (Numeric : Bool) :
    Except PyExc GRResult :=
  match m.MiniBM with
  | none => .error .attributeError
  | some sm =>
    let _ := sendcmdWire cmd
    .ok (getResponseLoop sm.dev Numeric 0)

/-- Command text built by `XdmMeter.set_mode`: the f-string
`CONF:{mode}` formats `mode` with `cmds.__str__`, i.e. the member
name. -/
def setModeCmd (mode : cmds) : List Char := str "CONF:" ++ cmds.toStr mode

/-- `XdmMeter.set_mode`: sends `CONF:{mode}` (text mode) and discards
the result. -/
def XdmMeter.set_mode (m : XdmMeter) (mode : cmds) : Except PyExc Unit :=
  (m.get_response (setModeCmd mode) false).map (fun _ => ())

/-- `XdmMeter.get_mode`: sends `FUNC?` in text mode. -/
def XdmMeter.get_mode (m : XdmMeter) : Except PyExc GRResult :=
  m.get_response (str "FUNC?") false

/-- `XdmMeter.get_measurement`: sends `MEAS?` in numeric mode. -/
def XdmMeter.get_measurement (m : XdmMeter) : Except PyExc GRResult :=
  m.get_response (str "MEAS?") true

/-- `XdmMeter.close`: calls `self.MiniBM.__del__()`; when `MiniBM` is
`None` the attribute access raises `AttributeError`. -/
def XdmMeter.close (m : XdmMeter) : Except PyExc XdmMeter :=
  match m.MiniBM with
  | none => .error .attributeError
  | some sm => .ok { m with MiniBM := some (SCPIModel.del sm) }

/-! ### Theorems -/

/-- Unfolding of the retry loop on an empty decoded line that is not yet
the last allowed attempt: sleep and retry with the counter increased. -/
theorem grloopEmptyStep (dev : Nat → List Char) (Numeric : Bool) (n : Nat)
    (h : dev n = []) (h5 : n < 5) :
    getResponseLoop dev Numeric n = getResponseLoop dev Numeric (n + 1) := by
  rw [getResponseLoop]
  simp [h]
  omega

/-- Unfolding of the retry loop on the sixth consecutive empty decoded
line: the sentinel is returned with six attempts and six delays. -/
theorem grloopEmptyLast (dev : Nat → List Char) (Numeric : Bool)
    (h : dev 5 = []) :
    getResponseLoop dev Numeric 5 =
      { res := if Numeric then .int 0 else .strv (str "?"),
        attempts := 6, sleeps := 6 } := by
  rw [getResponseLoop]
  simp [h]

/-- Unfolding of the retry loop on a non-empty decoded line: parse it
(numeric mode) or repair it (text mode) and stop. -/
theorem grloopNonempty (dev : Nat → List Char) (Numeric : Bool) (n : Nat)
    (h : dev n ≠ []) :
    getResponseLoop dev Numeric n =
      (if Numeric then
        match pyFloat (dev n) with
        | some v => { res := .float v, attempts := n + 1, sleeps := n }
        | none => { res := .int 0, attempts := n + 1, sleeps := n }
      else
        { res := .strv (repairArtifacts (dev n)), attempts := n + 1, sleeps := n }) := by
  rw [getResponseLoop]
  simp [h]

/-- The retry loop against a device that always produces an empty line:
from any failed-attempt count `n ≤ 5` it runs the remaining attempts and
returns the sentinel, having made 6 attempts and 6 delays in total. -/
theorem grloopAllEmpty (dev : Nat → List Char) (Numeric : Bool)
    (h : ∀ k, dev k = []) :
    ∀ j n, n + j = 6 → 0 < j →
    getResponseLoop dev Numeric n =
      { res := if Numeric then .int 0 else .strv (str "?"),
        attempts := 6, sleeps := 6 } := by
  intro j
  induction j with
  | zero => omega
  | succ j ih =>
    intro n hn _
    rcases Nat.eq_zero_or_pos j with hj | hj
    · have h5 : n = 5 := by omega
      subst h5
      exact grloopEmptyLast dev Numeric (h 5)
    · have h5 : n < 5 := by omega
      rw [grloopEmptyStep dev Numeric n (h n) h5]
      exact ih (n + 1) (by omega) hj

/-- Claim C2 (code bug evidence): `set_mode` formats the command with
`cmds.__str__`, which returns the member NAME, so `set_mode(VOLT_AC)`
sends `CONF:VOLT_AC` and `set_mode(DIODE)` sends `CONF:DIODE`, not the
declared mnemonics `CONF:VOLT:AC` / `CONF:DIOD` of the vocabulary; the
tuple values of the `cmds` enumeration are never consulted. -/
theorem C2_set_mode_sends_name_not_mnemonic :
    setModeCmd cmds.VOLT_AC = str "CONF:VOLT_AC" ∧
    setModeCmd cmds.VOLT_AC ≠ str "CONF:" ++ cmds.value cmds.VOLT_AC ∧
    setModeCmd cmds.DIODE = str "CONF:DIODE" ∧
    setModeCmd cmds.DIODE ≠ str "CONF:" ++ cmds.value cmds.DIODE ∧
    setModeCmd cmds.CURR_AC ≠ str "CONF:" ++ cmds.value cmds.CURR_AC ∧
    sendcmdWire (setModeCmd cmds.VOLT_AC) = str "CONF:VOLT_AC\n" := by
  refine ⟨rfl, by decide, rfl, by decide, by decide, rfl⟩

/-- Claim C1 (counterexample): after the identification query returns an
empty reply the constructor records absence (`MiniBM = None`), but a
subsequent `get_response` does NOT return the degraded sentinel — it
raises `AttributeError` on the cleared channel reference. -/
theorem C1_counterexample :
    (XdmMeter.init (fun _ => [])).MiniBM = none ∧
    (XdmMeter.init (fun _ => [])).get_response (str "MEAS?") true =
      .error .attributeError ∧
    (XdmMeter.init (fun _ => [])).get_measurement = .error .attributeError :=
  ⟨rfl, rfl, rfl⟩

/-- Claim C1 (amended): if the identification query returned an empty
reply, the instance records the device as absent (`MiniBM = None`) and
every subsequent operation — `get_response`, `get_mode`,
`get_measurement`, `set_mode` — raises `AttributeError` without
attempting any transport I/O, instead of returning the degraded
sentinel. -/
theorem C1_absent_device_ops_raise (m : XdmMeter) (cmd : List Char)
    (Numeric : Bool) (mode : cmds) (h : m.MiniBM = none) :
    m.get_response cmd Numeric = .error .attributeError ∧
    m.get_mode = .error .attributeError ∧
    m.get_measurement = .error .attributeError ∧
    m.set_mode mode = .error .attributeError := by
  simp [XdmMeter.get_response, XdmMeter.get_mode, XdmMeter.get_measurement,
    XdmMeter.set_mode, Except.map, h]

/-- Witness for `C1_absent_device_ops_raise` at a concrete absent
instance. -/
theorem C1_witness :
    ({ MiniBM := none, id := [] } : XdmMeter).get_response (str "MEAS?") true =
      .error .attributeError ∧
    ({ MiniBM := none, id := [] } : XdmMeter).get_mode = .error .attributeError ∧
    ({ MiniBM := none, id := [] } : XdmMeter).get_measurement =
      .error .attributeError ∧
    ({ MiniBM := none, id := [] } : XdmMeter).set_mode cmds.VOLT =
      .error .attributeError :=
  C1_absent_device_ops_raise { MiniBM := none, id := [] } (str "MEAS?") true
    cmds.VOLT rfl

/-- Claim C8 (counterexample): on an instance whose construction-time
identification failed, `close()` raises `AttributeError` (it calls
`__del__` on the cleared `MiniBM` reference) instead of never raising. -/
theorem C8_counterexample :
    (XdmMeter.init (fun _ => [])).close = .error .attributeError :=
  rfl

/-- Claim C8 (amended): on every instance whose identification
succeeded, `close()` releases the underlying channel (marks it closed),
never raises, and is safe to call repeatedly — a second `close()` also
succeeds and leaves the channel closed; on an instance whose
identification failed, `close()` raises `AttributeError`. -/
theorem C8_close_idempotent (m : XdmMeter) (sm : SCPIModel)
    (h : m.MiniBM = some sm) :
    m.close = .ok { m with MiniBM := some (SCPIModel.del sm) } ∧
    (SCPIModel.del sm).closed = true ∧
    ({ m with MiniBM := some (SCPIModel.del sm) } : XdmMeter).close =
      .ok { m with MiniBM := some (SCPIModel.del sm) } := by
  unfold XdmMeter.close
  rw [h]
  exact ⟨rfl, rfl, rfl⟩

/-- Witness for `C8_close_idempotent` at a concrete identified
instance. -/
theorem C8_witness :
    ({ MiniBM := some { dev := fun _ => str "XDM1041", closed := false },
       id := str "XDM1041" } : XdmMeter).close =
      .ok { MiniBM := some { dev := fun _ => str "XDM1041", closed := true },
            id := str "XDM1041" } :=
  (C8_close_idempotent
    { MiniBM := some { dev := fun _ => str "XDM1041", closed := false },
      id := str "XDM1041" }
    { dev := fun _ => str "XDM1041", closed := false } rfl).1

/-- Claim C5: if every send yields an empty decoded line, `get_response`
performs exactly 6 attempts, with the fixed 100 ms delay after each of
the 6 failed attempts, then returns the degraded sentinel (`0` when
numeric was requested, `"?"` otherwise) without raising. -/
theorem C5_retry_bound (m : XdmMeter) (sm : SCPIModel) (cmd : List Char)
    (Numeric : Bool) (hm : m.MiniBM = some sm) (h : ∀ k, sm.dev k = []) :
    m.get_response cmd Numeric =
      .ok { res := if Numeric then .int 0 else .strv (str "?"),
            attempts := 6, sleeps := 6 } := by
  unfold XdmMeter.get_response
  rw [hm]
  exact congrArg Except.ok (grloopAllEmpty sm.dev Numeric h 6 0 rfl (by omega))

/-- Witness for `C5_retry_bound` at a concrete silent device, in both
numeric and text mode. -/
theorem C5_witness :
    ({ MiniBM := some { dev := fun _ => [], closed := false }, id := str "X" } :
        XdmMeter).get_response (str "MEAS?") true =
      .ok { res := .int 0, attempts := 6, sleeps := 6 } ∧
    ({ MiniBM := some { dev := fun _ => [], closed := false }, id := str "X" } :
        XdmMeter).get_response (str "FUNC?") false =
      .ok { res := .strv (str "?"), attempts := 6, sleeps := 6 } :=
  ⟨C5_retry_bound _ { dev := fun _ => [], closed := false } (str "MEAS?") true
      rfl (fun _ => rfl),
   C5_retry_bound _ { dev := fun _ => [], closed := false } (str "FUNC?") false
      rfl (fun _ => rfl)⟩

/-- Claim C7: when the first attempt obtains a non-empty decoded line
that does not parse as a Python float, a numeric `get_response` returns
the sentinel `0` immediately — one attempt, no delay, no further
retries — and does not raise. -/
theorem C7_numeric_parse_degrade (m : XdmMeter) (sm : SCPIModel)
    (cmd : List Char) (s : List Char) (hm : m.MiniBM = some sm)
    (h0 : sm.dev 0 = s) (hne : s ≠ []) (hp : pyFloat s = none) :
    m.get_response cmd true = .ok { res := .int 0, attempts := 1, sleeps := 0 } := by
  have hbase : m.get_response cmd true = .ok (getResponseLoop sm.dev true 0) := by
    simp [XdmMeter.get_response, hm]
  have hloop := grloopNonempty sm.dev true 0 (by rw [h0]; exact hne)
  rw [h0, hp] at hloop
  simp at hloop
  rw [hbase, hloop]

/-- Witness for `C7_numeric_parse_degrade` on the decoded line
`"abc"`. -/
theorem C7_witness :
    ({ MiniBM := some { dev := fun _ => str "abc", closed := false },
       id := str "X" } : XdmMeter).get_response (str "MEAS?") true =
      .ok { res := .int 0, attempts := 1, sleeps := 0 } :=
  C7_numeric_parse_degrade _ { dev := fun _ => str "abc", closed := false }
    (str "MEAS?") (str "abc") rfl rfl (by decide) (by decide)

/-- Claim C6: in text mode, on a non-empty decoded line `s` obtained at
the first attempt, `get_response` applies the artifact repair with first
match winning, in this priority order: a line ending in the
eight-character escape `\xa6\xb8` of the Ω glyph has that suffix
replaced by `Ohm`; otherwise a line ending in the nine-character escape
`\xa6\xccF` of µF has that suffix replaced by `uF`; otherwise a line
ending in a double-quote is stripped of double-quotes at both ends;
any other line is returned unmodified. -/
theorem C6_artifact_repair (m : XdmMeter) (sm : SCPIModel) (cmd : List Char)
    (s : List Char) (hm : m.MiniBM = some sm) (h0 : sm.dev 0 = s)
    (hne : s ≠ []) :
    (omegaEsc <:+ s →
      m.get_response cmd false =
        .ok { res := .strv (s.take (s.length - 8) ++ str "Ohm"),
              attempts := 1, sleeps := 0 }) ∧
    (¬ omegaEsc <:+ s → muFEsc <:+ s →
      m.get_response cmd false =
        .ok { res := .strv (s.take (s.length - 9) ++ str "uF"),
              attempts := 1, sleeps := 0 }) ∧
    (¬ omegaEsc <:+ s → ¬ muFEsc <:+ s → ['"'] <:+ s →
      m.get_response cmd false =
        .ok { res := .strv (pyStripChar '"' s), attempts := 1, sleeps := 0 }) ∧
    (¬ omegaEsc <:+ s → ¬ muFEsc <:+ s → ¬ ['"'] <:+ s →
      m.get_response cmd false =
        .ok { res := .strv s, attempts := 1, sleeps := 0 }) := by
  have hbase : m.get_response cmd false =
      .ok { res := .strv (repairArtifacts s), attempts := 1, sleeps := 0 } := by
    have hb : m.get_response cmd false = .ok (getResponseLoop sm.dev false 0) := by
      simp [XdmMeter.get_response, hm]
    have hloop := grloopNonempty sm.dev false 0 (by rw [h0]; exact hne)
    rw [h0] at hloop
    simp at hloop
    rw [hb, hloop]
  refine ⟨fun h1 => ?_, fun h1 h2 => ?_, fun h1 h2 h3 => ?_, fun h1 h2 h3 => ?_⟩
  · rw [hbase]
    simp [repairArtifacts, h1]
  · rw [hbase]
    simp [repairArtifacts, h1, h2]
  · rw [hbase]
    simp [repairArtifacts, h1, h2, h3]
  · rw [hbase]
    simp [repairArtifacts, h1, h2, h3]

/-- Witness for `C6_artifact_repair`: the line consisting of the Ω
escape alone is repaired to `Ohm`. -/
theorem C6_witness :
    ({ MiniBM := some { dev := fun _ => str "\\xa6\\xb8", closed := false },
       id := str "X" } : XdmMeter).get_response (str "FUNC?") false =
      .ok { res := .strv (str "Ohm"), attempts := 1, sleeps := 0 } :=
  (C6_artifact_repair _ { dev := fun _ => str "\\xa6\\xb8", closed := false }
    (str "FUNC?") (str "\\xa6\\xb8") rfl rfl (by decide)).1 (by decide)

/-- Claim C4 (counterexample): the empty-read counter is NOT reset by a
read that returns bytes.  On the read sequence `A, ∅, B, ∅, C, ∅,
"D\r\n"` no two empty reads are consecutive, yet the source aborts with
an empty frame at the third empty read, while the consecutive-reset
reading of the claim would accept the frame and return `ABCD`. -/
theorem C4_counterexample :
    readdata [[65], [], [66], [], [67], [], [68, 13, 10]] = some [] ∧
    readdataConsecutive [[65], [], [66], [], [67], [], [68, 13, 10]] =
      some (str "ABCD") ∧
    some ([] : List Char) ≠ some (str "ABCD") := by
  refine ⟨by decide, by decide, by decide⟩

/-- Claim C4 (amended): the counter counts empty reads in total — a read
that returns bytes leaves it unchanged — and `readdata` aborts with an
empty frame when the total exceeds 2; in particular, on a channel that
always returns zero bytes it returns the empty frame after exactly 3
empty reads, never fewer (after only 2 empty reads it is still waiting),
never more. -/
theorem C4_total_empty_read_budget :
    (∀ (d : List Nat) (rest : List (List Nat)) (buf : List Nat) (n : Nat),
      d ≠ [] → bufDone (buf ++ d) = false →
      readdataLoop (d :: rest) buf n = readdataLoop rest (buf ++ d) n) ∧
    (∀ (rest : List (List Nat)) (buf : List Nat) (n : Nat), n < 2 →
      readdataLoop ([] :: rest) buf n = readdataLoop rest buf (n + 1)) ∧
    (∀ (rest : List (List Nat)) (buf : List Nat) (n : Nat), 2 ≤ n →
      readdataLoop ([] :: rest) buf n = some []) ∧
    (∀ rest : List (List Nat), readdata ([] :: [] :: [] :: rest) = some []) ∧
    readdata [[], []] = none := by
  refine ⟨?_, ?_, ?_, fun rest => rfl, by decide⟩
  · intro d rest buf n hd hdone
    rw [readdataLoop]
    simp [List.length_pos.mpr hd, hdone]
  · intro rest buf n h
    rw [readdataLoop]
    simp [show ¬ (2 < n + 1) from by omega]
  · intro rest buf n h
    rw [readdataLoop]
    simp [show 2 < n + 1 from by omega]

/-- Witness for `C4_total_empty_read_budget` at concrete reads. -/
theorem C4_witness :
    readdataLoop [[65]] [] 0 = readdataLoop [] ([] ++ [65]) 0 ∧
    readdataLoop [[], [65]] [] 0 = readdataLoop [[65]] [] 1 ∧
    readdataLoop [[]] [] 2 = some [] :=
  ⟨C4_total_empty_read_budget.1 [65] [] [] 0 (by decide) (by decide),
   C4_total_empty_read_budget.2.1 [[65]] [] 0 (by decide),
   C4_total_empty_read_budget.2.2.1 [] [] 2 (by decide)⟩

/-- Claim C3 (counterexample): a read that delivers the payload, the
terminator and trailing noise together (`"VOLT\r\nX"`) is NOT trimmed to
the bytes up to the first terminator: the tail check fails, the device
then stays silent, and `readdata` returns the empty string — whereas the
noise-free stream `"VOLT\r\n"` yields `VOLT`. -/
theorem C3_counterexample :
    readdata [[86, 79, 76, 84, 13, 10, 88], [], [], []] = some [] ∧
    readdata [[86, 79, 76, 84, 13, 10]] = some (str "VOLT") ∧
    ([] : List Char) ≠ str "VOLT" := by
  refine ⟨by decide, by decide, by decide⟩

/-- Claim C3 (amended): when a read delivers `payload ++ "\r\n" ++
noise` in one chunk (non-empty noise not itself ending in the
terminator), the frame is NOT accepted: the loop's check looks only at
the buffer tail, so the frame is discarded and `readdata` returns the
empty string once the empty-read budget is exhausted, rather than the
bytes up to and including the first terminator. -/
theorem C3_noise_discards_frame (p z : List Nat) (hz : z ≠ [])
    (hzc : ¬ crlfB <:+ z) :
    readdata ((p ++ crlfB ++ z) :: [[], [], []]) = some [] := by
  have hlen : 0 < (p ++ crlfB ++ z).length := by
    simp [crlfB]
  have hdrop : (p ++ crlfB ++ z).drop ((p ++ crlfB ++ z).length - 2) ≠ crlfB := by
    rcases z with _ | ⟨a, _ | ⟨b, zs⟩⟩
    · exact absurd rfl hz
    · have hre : p ++ crlfB ++ [a] = (p ++ [13]) ++ [10, a] := by
        simp [crlfB]
      rw [hre]
      have hl : ((p ++ [13]) ++ [10, a]).length - 2 = (p ++ [13]).length + 0 := by
        simp
      rw [hl, List.drop_append]
      simp [crlfB]
    · have hl : (p ++ crlfB ++ (a :: b :: zs)).length - 2 =
          (p ++ crlfB).length + ((a :: b :: zs).length - 2) := by
        simp [crlfB]
        omega
      rw [hl, List.drop_append]
      intro heq
      exact hzc (heq ▸ List.drop_suffix _ _)
  have hdone : bufDone (p ++ crlfB ++ z) = false := by
    unfold bufDone
    simp only [Bool.and_eq_false_iff, beq_eq_false_iff_ne, ne_eq]
    right
    exact hdrop
  have hdoneR : bufDone (p ++ (crlfB ++ z)) = false := by
    rw [← List.append_assoc]
    exact hdone
  rw [readdata]
  have h1 : readdataLoop ((p ++ crlfB ++ z) :: [[], [], []]) [] 0 =
      readdataLoop [[], [], []] ([] ++ (p ++ crlfB ++ z)) 0 := by
    rw [readdataLoop]
    simp [hlen, hdone, hdoneR]
    intro hp hc hzz
    simp [crlfB] at hc
  rw [h1]
  rfl

/-- Witness for `C3_noise_discards_frame` at a concrete stream. -/
theorem C3_witness :
    readdata (([86] ++ crlfB ++ [88]) :: [[], [], []]) = some [] :=
  C3_noise_discards_frame [86] [88] (by decide) (by decide)

/-- Helper for claim C10: from any state, as long as every observed read
returns bytes and no accumulated buffer ever ends with the terminator,
the `readdata` loop neither aborts nor accepts — it is still running
when the observation window ends. -/
theorem readdataLoopRunsOn (chunks : List (List Nat)) :
    ∀ (buf : List Nat) (n : Nat),
    (∀ c ∈ chunks, c ≠ []) →
    (∀ k, k ≤ chunks.length → bufDone (buf ++ (chunks.take k).flatten) = false) →
    readdataLoop chunks buf n = none := by
  induction chunks with
  | nil => intro buf n _ _; rfl
  | cons d rest ih =>
    intro buf n hne hdone
    have hd : d ≠ [] := hne d (by simp)
    have h1 : bufDone (buf ++ d) = false := by
      have := hdone 1 (by simp)
      simpa using this
    rw [readdataLoop]
    simp only [List.length_pos.mpr hd, if_pos, h1, if_neg, Bool.false_eq_true,
      ite_false]
    exact ih (buf ++ d) n (fun c hc => hne c (List.mem_cons_of_mem d hc))
      (fun k hk => by
        have := hdone (k + 1) (by simpa using hk)
        simpa [List.append_assoc] using this)

/-- Claim C10: `readdata` exits only via a terminator at the buffer tail
or via the empty-read budget; on a channel that keeps returning
non-empty chunks while the accumulated buffer never ends with `CR LF`,
the loop never returns — the empty-read counter is untouched by
non-empty reads and there is no other exit, so after any finite number
of such reads it is still running. -/
theorem C10_no_exit_on_endless_data (chunks : List (List Nat))
    (hne : ∀ c ∈ chunks, c ≠ [])
    (hdone : ∀ k, k ≤ chunks.length → bufDone ((chunks.take k).flatten) = false) :
    readdata chunks = none := by
  rw [readdata, readdataLoopRunsOn chunks [] 0 hne (by simpa using hdone)]
  rfl

/-- Witness for `C10_no_exit_on_endless_data` at a concrete two-read
window. -/
theorem C10_witness : readdata [[65], [66]] = none :=
  C10_no_exit_on_endless_data [[65], [66]] (by decide) (by decide)

/-- The head of a `dropWhile` result never satisfies the dropped
predicate. -/
theorem headOfDropWhileFalse (p : Char → Bool) (l : List Char) (c : Char)
    (h : (l.dropWhile p).head? = some c) : p c = false := by
  have hm := List.head?_dropWhile_not p l
  rw [h] at hm
  exact hm

/-- A non-empty suffix has the same last element as the whole list. -/
theorem getLastOfSuffix {u v : List Char} (h : v <:+ u) (hne : v ≠ []) :
    u.getLast? = v.getLast? := by
  obtain ⟨t, rfl⟩ := h
  rw [List.getLast?_append]
  cases hv : v.getLast? with
  | none => exact absurd (List.getLast?_eq_none_iff.mp hv) hne
  | some x => simp

/-- The last element kept by `trimRightBy` never satisfies the trimmed
predicate. -/
theorem trimRightLastNotSpace (p : Char → Bool) (s : List Char) (c : Char)
    (h : (trimRightBy p s).getLast? = some c) : p c = false := by
  unfold trimRightBy at h
  rw [List.getLast?_reverse] at h
  exact headOfDropWhileFalse p s.reverse c h

/-- `trimRightBy` keeps an initial segment of the list. -/
theorem trimRightDecomp (p : Char → Bool) (s : List Char) :
    s = trimRightBy p s ++ (s.reverse.takeWhile p).reverse := by
  unfold trimRightBy
  rw [← List.reverse_append, List.takeWhile_append_dropWhile, List.reverse_reverse]

/-- The stripped line sits inside the original line. -/
theorem pyStripDecomp (s : List Char) :
    ∃ x y, s = x ++ (pyStrip s ++ y) := by
  refine ⟨(trimRightBy pyIsSpace s).takeWhile pyIsSpace,
    (s.reverse.takeWhile pyIsSpace).reverse, ?_⟩
  conv_lhs => rw [trimRightDecomp pyIsSpace s]
  rw [← List.append_assoc]
  unfold pyStrip
  rw [List.takeWhile_append_dropWhile]

/-- The head of a stripped line is not whitespace. -/
theorem pyStripHeadNotSpace (s : List Char) (c : Char)
    (h : (pyStrip s).head? = some c) : pyIsSpace c = false :=
  headOfDropWhileFalse pyIsSpace (trimRightBy pyIsSpace s) c h

/-- The last element of a stripped line is not whitespace. -/
theorem pyStripLastNotSpace (s : List Char) (c : Char)
    (h : (pyStrip s).getLast? = some c) : pyIsSpace c = false := by
  have hne : pyStrip s ≠ [] := by
    intro he
    rw [he] at h
    simp at h
  have hsuf : pyStrip s <:+ trimRightBy pyIsSpace s := List.dropWhile_suffix _
  have hlast := getLastOfSuffix hsuf hne
  rw [← hlast] at h
  exact trimRightLastNotSpace pyIsSpace s c h

/-- One-step characterisation of the terminator search. -/
theorem hasCRLFConsEq (c : Char) (t : List Char) :
    hasCRLF (c :: t) = (crlfL.isPrefixOf (c :: t) || hasCRLF t) := by
  by_cases h : crlfL.isPrefixOf (c :: t) = true
  · simp [hasCRLF, findCrlfIdx, h]
  · simp [hasCRLF, findCrlfIdx, h]

/-- The terminator bytes lead a list exactly when it starts `\r\n`. -/
theorem isPrefixOfCrlfIff (t : List Char) :
    crlfL.isPrefixOf t = true ↔ ∃ b, t = '\r' :: '\n' :: b := by
  cases t with
  | nil => simp [crlfL, List.isPrefixOf]
  | cons c rest =>
    cases rest with
    | nil => simp [crlfL, List.isPrefixOf]
    | cons d rest2 =>
      constructor
      · intro h
        simp [crlfL, List.isPrefixOf] at h
        exact ⟨rest2, by simp [h.1.symm, h.2.symm]⟩
      · rintro ⟨b, hb⟩
        rw [hb]
        simp [crlfL, List.isPrefixOf]

/-- A list containing the terminator as a visible segment is found by
the search. -/
theorem hasCRLFParts (a b : List Char) : hasCRLF (a ++ (crlfL ++ b)) = true := by
  induction a with
  | nil =>
    rw [List.nil_append]
    have hp : crlfL.isPrefixOf ('\r' :: '\n' :: b) = true :=
      (isPrefixOfCrlfIff _).mpr ⟨b, rfl⟩
    have he : crlfL ++ b = '\r' :: '\n' :: b := by simp [crlfL]
    rw [he, hasCRLFConsEq, hp]
    simp
  | cons c a' ih =>
    rw [List.cons_append, hasCRLFConsEq]
    simp [ih]

/-- A list in which the search finds the terminator splits around a
terminator occurrence. -/
theorem hasCRLFDecomp (l : List Char) (h : hasCRLF l = true) :
    ∃ a b, l = a ++ (crlfL ++ b) := by
  induction l with
  | nil => simp [hasCRLF, findCrlfIdx] at h
  | cons c t ih =>
    rw [hasCRLFConsEq] at h
    rcases Bool.or_eq_true_iff.mp h with h1 | h2
    · obtain ⟨b, hb⟩ := (isPrefixOfCrlfIff _).mp h1
      exact ⟨[], b, by simp [crlfL, hb]⟩
    · obtain ⟨a, b, hab⟩ := ih h2
      exact ⟨c :: a, b, by simp [hab]⟩

/-- Terminator-freedom passes to any contiguous segment. -/
theorem hasCRLFFalseOfParts (l x v y : List Char) (he : l = x ++ (v ++ y))
    (h : hasCRLF l = false) : hasCRLF v = false := by
  by_contra hv
  have hv' : hasCRLF v = true := by
    cases hcv : hasCRLF v
    · exact absurd hcv hv
    · rfl
  obtain ⟨a, b, hab⟩ := hasCRLFDecomp v hv'
  have h2 : hasCRLF ((x ++ a) ++ (crlfL ++ (b ++ y))) = true :=
    hasCRLFParts (x ++ a) (b ++ y)
  have heq : (x ++ a) ++ (crlfL ++ (b ++ y)) = l := by
    rw [he, hab]
    simp [List.append_assoc]
  rw [heq, h] at h2
  cases h2

/-- A successful terminator search splits the line at the FIRST
occurrence: the part before the found index is terminator-free. -/
theorem findCrlfIdxDecomp (s : List Char) (i : Nat) (h : findCrlfIdx s = some i) :
    ∃ a b, s = a ++ (crlfL ++ b) ∧ a.length = i ∧ findCrlfIdx a = none := by
  induction s generalizing i with
  | nil => simp [findCrlfIdx] at h
  | cons c t ih =>
    rw [findCrlfIdx] at h
    by_cases hp : crlfL.isPrefixOf (c :: t) = true
    · rw [if_pos hp] at h
      obtain ⟨b, hb⟩ := (isPrefixOfCrlfIff _).mp hp
      have hi : i = 0 := by
        have := Option.some.injEq 0 i ▸ h
        omega
      subst hi
      exact ⟨[], b, by simp [crlfL, hb], rfl, rfl⟩
    · rw [if_neg hp] at h
      obtain ⟨i', hi', hii⟩ := Option.map_eq_some'.mp h
      obtain ⟨a, b, hab, ha, hn⟩ := ih i' hi'
      refine ⟨c :: a, b, by simp [hab], by simp [ha, hii], ?_⟩
      rw [findCrlfIdx]
      have hpa : ¬ crlfL.isPrefixOf (c :: a) = true := by
        intro hx
        obtain ⟨b2, hb2⟩ := (isPrefixOfCrlfIff _).mp hx
        apply hp
        rw [isPrefixOfCrlfIff]
        injection hb2 with hc ha2
        exact ⟨a.tail ++ (crlfL ++ b), by rw [hab, hc, ha2]; simp⟩
      rw [if_neg hpa, hn]
      rfl

/-- Stripping removes a trailing terminator before trimming anything
else (`\r` and `\n` are whitespace). -/
theorem pyStripTrailingCrlf (a : List Char) :
    pyStrip (a ++ crlfL) = pyStrip a := by
  unfold pyStrip
  have ht : trimRightBy pyIsSpace (a ++ crlfL) = trimRightBy pyIsSpace a := by
    unfold trimRightBy
    have hrev : (a ++ crlfL).reverse = '\n' :: '\r' :: a.reverse := by
      simp [crlfL]
    rw [hrev]
    have h1 : pyIsSpace '\n' = true := rfl
    have h2 : pyIsSpace '\r' = true := rfl
    rw [List.dropWhile_cons, h1]
    rw [if_pos rfl]
    rw [List.dropWhile_cons, h2]
    rw [if_pos rfl]
  rw [ht]

/-- Every accepted-and-stripped line of `postProcess` is either empty or
free of the terminator with no whitespace at either edge; every decoded
buffer whose first terminator is elsewhere than the tail yields the
empty string. -/
theorem postProcessInvariant (s : List Char) :
    postProcess s = [] ∨
      (hasCRLF (postProcess s) = false ∧
       (∀ c, (postProcess s).head? = some c → pyIsSpace c = false) ∧
       (∀ c, (postProcess s).getLast? = some c → pyIsSpace c = false)) := by
  by_cases hc : pyFindCRLF s = (s.length : Int) - 2
  · have hps : postProcess s = pyStrip s := by
      unfold postProcess
      rw [if_pos hc]
    right
    rw [hps]
    refine ⟨?_, fun c h => pyStripHeadNotSpace s c h,
      fun c h => pyStripLastNotSpace s c h⟩
    unfold pyFindCRLF at hc
    cases hf : findCrlfIdx s with
    | none =>
      have hs : hasCRLF s = false := by simp [hasCRLF, hf]
      obtain ⟨x, y, he⟩ := pyStripDecomp s
      exact hasCRLFFalseOfParts s x _ y he hs
    | some i =>
      obtain ⟨a, b, hab, ha, hn⟩ := findCrlfIdxDecomp s i hf
      rw [hf] at hc
      have hci : (i : Int) = (s.length : Int) - 2 := by simpa using hc
      have hb : b = [] := by
        have hlen : s.length = a.length + (2 + b.length) := by
          rw [hab]
          simp only [List.length_append, crlfL, List.length_cons, List.length_nil]
        have : b.length = 0 := by omega
        exact List.eq_nil_of_length_eq_zero this
      subst hb
      have hab2 : s = a ++ crlfL := by
        rw [hab]
        simp
      have hsf : hasCRLF a = false := by simp [hasCRLF, hn]
      rw [hab2, pyStripTrailingCrlf]
      obtain ⟨x, y, he⟩ := pyStripDecomp a
      exact hasCRLFFalseOfParts a x _ y he hsf
  · left
    unfold postProcess
    rw [if_neg hc]

/-- Claim C9: every string returned by `readdata` is either empty or
contains no occurrence of the `CR LF` terminator and has no leading or
trailing whitespace; and a decoded buffer whose first `CR LF` is not at
the tail position is always discarded to the empty string, never
returned partially. -/
theorem C9_result_invariant :
    (∀ (chunks : List (List Nat)) (r : List Char), readdata chunks = some r →
      r = [] ∨
        (hasCRLF r = false ∧
         (∀ c, r.head? = some c → pyIsSpace c = false) ∧
         (∀ c, r.getLast? = some c → pyIsSpace c = false))) ∧
    (∀ s : List Char, pyFindCRLF s ≠ (s.length : Int) - 2 → postProcess s = []) := by
  constructor
  · intro chunks r h
    rw [readdata] at h
    cases hl : readdataLoop chunks [] 0 with
    | none =>
      rw [hl] at h
      cases h
    | some buf =>
      rw [hl] at h
      simp only [Option.map_some'] at h
      injection h with h2
      rw [← h2]
      exact postProcessInvariant (pyDecodeBR buf)
  · intro s hne
    unfold postProcess
    rw [if_neg hne]

/-- Witness for `C9_result_invariant` on the accepted frame `"A\r\n"`
(result `A`) and the rejected decoded line `"A\r\nB"`. -/
theorem C9_witness :
    (['A'] = [] ∨
      (hasCRLF ['A'] = false ∧
       (∀ c, (['A'] : List Char).head? = some c → pyIsSpace c = false) ∧
       (∀ c, (['A'] : List Char).getLast? = some c → pyIsSpace c = false))) ∧
    postProcess ['A', '\r', '\n', 'B'] = [] :=
  ⟨C9_result_invariant.1 [[65, 13, 10]] ['A'] (by decide),
   C9_result_invariant.2 ['A', '\r', '\n', 'B'] (by decide)⟩

end Xdm
